import Mathlib

/-!
# Echo-Frame backend: formal model of the real-time room core

Shallow embedding of the watch-party backend's real-time modules:

* `app/core/socketio_manager.py` — presence registry (`room_connections`),
  playback control handlers (`video_play` / `video_pause` / `video_seek` /
  `video_switch`), viewer request approval (`approve_request`), disconnect
  handling and presence query (`get_guest_presence`);
* `app/core/redis_chat.py` — chat log (`add_message`) and reactions
  (`add_reaction` / `remove_reaction` / `get_reactions`);
* `app/services/guest_service.py` — moderation operations
  (`update_permissions` / `promote_guest` / `demote_guest`).

Python dicts (and Redis hashes) are modelled as association lists with
insertion-order-preserving update (`dictSet` replaces in place, appends when
the key is new), which matches CPython dict semantics.  Timestamps are
naturals (seconds of wall clock); media positions are exact rationals
standing in for Python floats.  Each socket.io handler becomes a pure
function `state → input → state × List Emitted` where `Emitted` records every
`sio.emit` call with its routing (to one sid, or broadcast to a room).
-/

namespace EchoFrame

/-! ## Association-list primitives (Python dict / Redis hash semantics) -/

/-- Python `d.get(k)` / Redis `HGET`: first value bound to `k`. -/
def dictGet {κ α : Type} [DecidableEq κ] : List (κ × α) → κ → Option α
  | [], _ => none
  | (k', v) :: rest, k => if k' = k then some v else dictGet rest k

/-- Python `d[k] = v` / Redis `HSET`: replace in place if present, else
append (CPython dicts preserve insertion order). -/
def dictSet {κ α : Type} [DecidableEq κ] : List (κ × α) → κ → α → List (κ × α)
  | [], k, v => [(k, v)]
  | (k', v') :: rest, k, v =>
    if k' = k then (k, v) :: rest else (k', v') :: dictSet rest k v

/-- Python `del d[k]` / Redis `HDEL`: drop the first binding of `k`. -/
def dictDel {κ α : Type} [DecidableEq κ] : List (κ × α) → κ → List (κ × α)
  | [], _ => []
  | (k', v') :: rest, k =>
    if k' = k then rest else (k', v') :: dictDel rest k

/-- Python `d.update(patch)`: apply each binding of the patch in order. -/
def dictUpdate {κ α : Type} [DecidableEq κ]
    (cur patch : List (κ × α)) : List (κ × α) :=
  patch.foldl (fun acc kv => dictSet acc kv.1 kv.2) cur

/-! ## Moderation / permission state machine (`app/services/guest_service.py`)

Only the fields these operations read or write are carried; the other
columns of the `Guest` model (tokens, fingerprint, join status, …) are
untouched by `update_permissions` / `promote_guest` / `demote_guest`. -/

/-- `GuestRole` enum from `app/models/guest.py`. -/
inductive GuestRole where
  | viewer
  | moderator
deriving DecidableEq, Repr

/-- The part of the `Guest` row mutated by the moderation operations:
`role` and the `permissions_json` JSONB dict (string keys, boolean values,
insertion-ordered like a Python dict). -/
structure Guest where
  role : GuestRole
  permissionsJson : List (String × Bool)
deriving DecidableEq, Repr

/-- `guest_service.update_permissions`: merge the patch into the current
permissions dict, then force `can_chat`/`can_voice` to `True` when the
guest's role is moderator. -/
def update_permissions (g : Guest) (permissions : List (String × Bool)) : Guest :=
  let current := dictUpdate g.permissionsJson permissions
  let current :=
    if g.role = GuestRole.moderator then
      dictSet (dictSet current "can_chat" true) "can_voice" true
    else current
  { g with permissionsJson := current }

/-- `guest_service.promote_guest`: set role to moderator, force both
permission flags `True`, then re-apply a clean dict if the double-check
after the flush finds either flag not `True`. -/
def promote_guest (g : Guest) : Guest :=
  let perms := dictSet (dictSet g.permissionsJson "can_chat" true) "can_voice" true
  let g1 : Guest := { role := GuestRole.moderator, permissionsJson := perms }
  if dictGet g1.permissionsJson "can_chat" ≠ some true ∨
      dictGet g1.permissionsJson "can_voice" ≠ some true then
    { g1 with permissionsJson := [("can_chat", true), ("can_voice", true)] }
  else g1

/-- `guest_service.demote_guest`: back to viewer with both flags reset. -/
def demote_guest (_g : Guest) : Guest :=
  { role := GuestRole.viewer,
    permissionsJson := [("can_chat", false), ("can_voice", false)] }

/-- The spec's role invariant: a moderator always has `can_chat` and
`can_voice` equal to `true` in `permissions_json`. -/
def moderatorInvariant (g : Guest) : Prop :=
  g.role = GuestRole.moderator →
    dictGet g.permissionsJson "can_chat" = some true ∧
    dictGet g.permissionsJson "can_voice" = some true

/-! ## Chat / reaction store (`app/core/redis_chat.py`)

Redis is modelled as connected (the `if not redis_client.redis` guard is
the disconnected path, out of scope here).  The per-room message list
(`RPUSH`/`LRANGE`/`LTRIM`) is a Lean list; the per-message reaction hash is
an association list emoji → author ids (the JSON-encoded arrays that the
code stores as hash-field values). -/

/-- One stored chat message object (the dict built in `add_message`). -/
structure ChatMessage where
  id : String
  userId : String
  username : String
  message : String
  timestamp : String
  replyToId : Option String
deriving DecidableEq, Repr

/-- The Redis keyspace touched by `RedisChatService`: message logs keyed by
room (`chat:{room}:messages`) and reaction hashes keyed by room and message
(`chat:{room}:reactions:{message}`). -/
structure ChatState where
  messages : List (String × List ChatMessage)
  reactions : List ((String × String) × List (String × List String))
deriving DecidableEq, Repr

/-- `RedisChatService.MAX_MESSAGES`. -/
def MAX_MESSAGES : Nat := 200

/-- Python `x or default` on an optional string: `None` and `""` are falsy. -/
def pyOrStr (o : Option String) (dflt : String) : String :=
  match o with
  | none => dflt
  | some s => if s = "" then dflt else s

/-- The duplicate scan in `add_message`: first stored message whose `id`
field equals the candidate id. -/
def findById : List ChatMessage → String → Option ChatMessage
  | [], _ => none
  | m :: rest, msgId => if m.id = msgId then some m else findById rest msgId

/-- Redis `LTRIM key -n -1`: keep the last `n` elements. -/
def ltrimLast (l : List ChatMessage) (n : Nat) : List ChatMessage :=
  l.drop (l.length - n)

/-- `RedisChatService.add_message`.  `genId`/`genTimestamp` stand for the
`uuid4`/`utcnow` values the code generates when the client supplies none.
Returns the new store and the message dict the call returns. -/
def add_message (st : ChatState) (roomId userId username message : String)
    (replyToId : Option String) (messageId : Option String)
    (timestamp : Option String) (genId genTimestamp : String) :
    ChatState × ChatMessage :=
  let msgId := pyOrStr messageId genId
  let msgTimestamp := pyOrStr timestamp genTimestamp
  let log := (dictGet st.messages roomId).getD []
  match findById log msgId with
  | some existing => (st, existing)
  | none =>
    let m : ChatMessage :=
      { id := msgId, userId := userId, username := username,
        message := message, timestamp := msgTimestamp, replyToId := replyToId }
    let log' := ltrimLast (log ++ [m]) MAX_MESSAGES
    ({ st with messages := dictSet st.messages roomId log' }, m)

/-- `RedisChatService.add_reaction`: append the author to the emoji's id
list unless already present.  Returns the updated store and the boolean the
method returns. -/
def add_reaction (st : ChatState) (roomId messageId emoji userId : String) :
    ChatState × Bool :=
  let key := (roomId, messageId)
  let h := (dictGet st.reactions key).getD []
  let userIds := (dictGet h emoji).getD []
  if userId ∈ userIds then (st, false)
  else
    let h' := dictSet h emoji (userIds ++ [userId])
    ({ st with reactions := dictSet st.reactions key h' }, true)

/-- `RedisChatService.remove_reaction`: drop the author from the emoji's id
list; delete the emoji field entirely when the list becomes empty. -/
def remove_reaction (st : ChatState) (roomId messageId emoji userId : String) :
    ChatState × Bool :=
  let key := (roomId, messageId)
  let h := (dictGet st.reactions key).getD []
  match dictGet h emoji with
  | none => (st, false)
  | some userIds =>
    if userId ∈ userIds then
      let remaining := userIds.erase userId
      let h' := if remaining = [] then dictDel h emoji
                else dictSet h emoji remaining
      ({ st with reactions := dictSet st.reactions key h' }, true)
    else (st, false)

/-- `RedisChatService.get_reactions`: the whole reaction hash for one
message (`HGETALL`), emoji → author ids. -/
def get_reactions (st : ChatState) (roomId messageId : String) :
    List (String × List String) :=
  (dictGet st.reactions (roomId, messageId)).getD []

/-! ## Socket.io real-time core (`app/core/socketio_manager.py`) -/

/-- The per-guest record stored in `room_connections[room_id][guest_id]`. -/
structure ConnInfo where
  sid : String
  role : String
  username : String
deriving DecidableEq, Repr

/-- The per-room playback state dict stored under `room:{id}:playback_state`.
Positions are exact rationals standing in for Python floats; `lastUpdated`
is the `last_updated` wall-clock stamp in seconds. -/
structure PlaybackState where
  currentVideoId : Option String
  isPlaying : Bool
  currentTimestamp : ℚ
  lastUpdated : Nat
  controlledBy : Option String
deriving DecidableEq, Repr

/-- One entry of the in-memory `pending_requests` dict. -/
structure PendingRequest where
  reqType : String
  guestId : Option String
  username : String
  roomId : Option String
  seconds : Option ℚ
  timestamp : Nat
deriving DecidableEq, Repr

/-- The mutable server state the handlers touch: the two module-level dicts
of `socketio_manager.py` plus the playback-state store.

The playback store is the one piece not in `src`: `redis_client.get_video_state`
/ `set_video_state` are called by every video handler but defined elsewhere
in the repository.  Modelled from the spec: `room:{id}:playback_state` is a
per-room key-value slot holding the canonical playback dict (TTL ignored —
no claim depends on expiry). -/
structure SioState where
  roomConnections : List (String × List (String × ConnInfo))
  pendingRequests : List (String × PendingRequest)
  videoStates : List (String × PlaybackState)
deriving DecidableEq, Repr

/-- Every `sio.emit` call, with its routing: events sent `to=sid` carry the
sid, events sent `room=room_id` carry the room (and `user_joined` the
skipped sid). -/
inductive Emitted where
  | error (msg sid : String)
  | userJoined (roomId guestId username role skipSid : String)
  | userLeft (roomId guestId username : String)
  | videoState (roomId : String) (state : PlaybackState)
  | videoStateTo (sid : String) (state : PlaybackState)
  | videoSwitched (roomId videoId : String)
  | requestsDismissed (roomId : String) (requestIds : List String)
  | requestApproved (roomId : Option String) (requestId reqType : String)
deriving DecidableEq, Repr

/-- `get_user_role`: look the guest up in `room_connections`, defaulting to
`"viewer"` whenever the room or the guest is unknown (the guest id may be
absent from the message entirely, hence the `Option`). -/
def get_user_role (st : SioState) (guestId : Option String) (roomId : String) :
    String :=
  match dictGet st.roomConnections roomId with
  | some users =>
    match guestId with
    | some g =>
      match dictGet users g with
      | some info => info.role
      | none => "viewer"
    | none => "viewer"
  | none => "viewer"

/-- `get_user_role` as called with a possibly missing `room_id` (a `None`
room is never a key of `room_connections`). -/
def get_user_role_opt (st : SioState) (guestId roomId : Option String) :
    String :=
  match roomId with
  | some r => get_user_role st guestId r
  | none => "viewer"

/-- `is_admin_or_mod`. -/
def is_admin_or_mod (role : String) : Bool :=
  role == "admin" || role == "moderator"

/-- `video:play` handler.  `now` is the `datetime.utcnow()` stamp.  A
missing or empty `room_id` is falsy in Python, hence the two guards. -/
def video_play (st : SioState) (sid : String) (roomId guestId : Option String)
    (timestamp : ℚ) (now : Nat) : SioState × List Emitted :=
  match roomId with
  | none => (st, [.error "Missing room_id" sid])
  | some rid =>
    if rid = "" then (st, [.error "Missing room_id" sid])
    else if is_admin_or_mod (get_user_role st guestId rid) then
      let existing := dictGet st.videoStates rid
      let newState : PlaybackState :=
        { currentVideoId := existing.bind (·.currentVideoId)
          isPlaying := true
          currentTimestamp := timestamp
          lastUpdated := now
          controlledBy := guestId }
      ({ st with videoStates := dictSet st.videoStates rid newState },
        [.videoState rid newState])
    else (st, [.error "Unauthorized" sid])

/-- Auto-dismiss pass shared by `video:pause` and `video:seek`: remove
every pending request of the given type for the room, returning the removed
ids (in insertion order) and the remaining dict. -/
def dismissOfType (pending : List (String × PendingRequest))
    (rid reqType : String) :
    List String × List (String × PendingRequest) :=
  let hit := fun (p : String × PendingRequest) =>
    p.2.roomId == some rid && p.2.reqType == reqType
  ((pending.filter hit).map (·.1), pending.filter (fun p => !(hit p)))

/-- `video:pause` handler: store the paused state, broadcast it, then
auto-dismiss all pending `pause` requests of the room. -/
def video_pause (st : SioState) (sid : String) (roomId guestId : Option String)
    (timestamp : ℚ) (now : Nat) : SioState × List Emitted :=
  match roomId with
  | none => (st, [.error "Missing room_id" sid])
  | some rid =>
    if rid = "" then (st, [.error "Missing room_id" sid])
    else if is_admin_or_mod (get_user_role st guestId rid) then
      let existing := dictGet st.videoStates rid
      let newState : PlaybackState :=
        { currentVideoId := existing.bind (·.currentVideoId)
          isPlaying := false
          currentTimestamp := timestamp
          lastUpdated := now
          controlledBy := guestId }
      let (dismissed, remaining) := dismissOfType st.pendingRequests rid "pause"
      ({ st with videoStates := dictSet st.videoStates rid newState,
                 pendingRequests := remaining },
        [.videoState rid newState] ++
          (if dismissed = [] then [] else [.requestsDismissed rid dismissed]))
    else (st, [.error "Unauthorized" sid])

/-- `video:seek` handler: store the new position (preserving the stored
play/pause flag), broadcast it, then auto-dismiss all pending `rewind`
requests of the room.  No tolerance or debounce check appears anywhere:
every authorized seek is stored and broadcast. -/
def video_seek (st : SioState) (sid : String) (roomId guestId : Option String)
    (timestamp : ℚ) (now : Nat) : SioState × List Emitted :=
  match roomId with
  | none => (st, [.error "Missing room_id" sid])
  | some rid =>
    if rid = "" then (st, [.error "Missing room_id" sid])
    else if is_admin_or_mod (get_user_role st guestId rid) then
      let existing := dictGet st.videoStates rid
      let wasPlaying := match existing with
        | some s => s.isPlaying
        | none => false
      let newState : PlaybackState :=
        { currentVideoId := existing.bind (·.currentVideoId)
          isPlaying := wasPlaying
          currentTimestamp := timestamp
          lastUpdated := now
          controlledBy := guestId }
      let (dismissed, remaining) := dismissOfType st.pendingRequests rid "rewind"
      ({ st with videoStates := dictSet st.videoStates rid newState,
                 pendingRequests := remaining },
        [.videoState rid newState] ++
          (if dismissed = [] then [] else [.requestsDismissed rid dismissed]))
    else (st, [.error "Unauthorized" sid])

/-- `video:switch` handler: reset to the new video, paused at position 0. -/
def video_switch (st : SioState) (sid : String)
    (roomId guestId videoId : Option String) (now : Nat) :
    SioState × List Emitted :=
  match roomId, videoId with
  | some rid, some vid =>
    if rid = "" ∨ vid = "" then
      (st, [.error "Missing room_id or video_id" sid])
    else if is_admin_or_mod (get_user_role st guestId rid) then
      let newState : PlaybackState :=
        { currentVideoId := some vid
          isPlaying := false
          currentTimestamp := 0
          lastUpdated := now
          controlledBy := guestId }
      ({ st with videoStates := dictSet st.videoStates rid newState },
        [.videoState rid newState, .videoSwitched rid vid])
    else (st, [.error "Unauthorized" sid])
  | _, _ => (st, [.error "Missing room_id or video_id" sid])

/-- `join_room` handler: register (or overwrite) the guest's connection
record, notify the room (skipping the joiner), and hydrate the joiner with
the stored playback state when one exists. -/
def join_room (st : SioState) (sid : String) (roomId guestId : Option String)
    (username role : String) : SioState × List Emitted :=
  match roomId, guestId with
  | some rid, some gid =>
    if rid = "" ∨ gid = "" then
      (st, [.error "Missing room_id or guest_id" sid])
    else
      let users := (dictGet st.roomConnections rid).getD []
      let users' := dictSet users gid ⟨sid, role, username⟩
      let st' := { st with roomConnections := dictSet st.roomConnections rid users' }
      let joined := Emitted.userJoined rid gid username role sid
      match dictGet st.videoStates rid with
      | some vs => (st', [joined, .videoStateTo sid vs])
      | none => (st', [joined])
  | _, _ => (st, [.error "Missing room_id or guest_id" sid])

/-- Inner loop of `disconnect` over one room's user dict: delete the first
guest owning the sid (the code `break`s after one hit per room). -/
def removeFirstSid (sid : String) :
    List (String × ConnInfo) →
    Option (String × String) × List (String × ConnInfo)
  | [] => (none, [])
  | (gid, info) :: rest =>
    if info.sid = sid then (some (gid, info.username), rest)
    else
      let (found, rest') := removeFirstSid sid rest
      (found, (gid, info) :: rest')

/-- Outer loop of `disconnect` over all rooms, collecting the `user_left`
broadcasts in room-insertion order. -/
def disconnectRooms (sid : String) :
    List (String × List (String × ConnInfo)) →
    List (String × List (String × ConnInfo)) × List Emitted
  | [] => ([], [])
  | (rid, users) :: rest =>
    let (found, users') := removeFirstSid sid users
    let (rest', emits) := disconnectRooms sid rest
    match found with
    | some (gid, uname) =>
      ((rid, users') :: rest', .userLeft rid gid uname :: emits)
    | none => ((rid, users) :: rest', emits)

/-- `disconnect` handler: scrub the sid from every room's connection dict,
broadcasting `user_left` for each removal. -/
def disconnect (st : SioState) (sid : String) : SioState × List Emitted :=
  let (conns', emits) := disconnectRooms sid st.roomConnections
  ({ st with roomConnections := conns' }, emits)

/-- Presence query result (`get_guest_presence`'s returned dict). -/
structure Presence where
  online : Bool
  offlineSince : Option Nat
  stale : Bool
deriving DecidableEq, Repr

/-- `get_guest_presence`: online iff the guest currently holds a connection
record; `offline_since` and `stale` are constants in the code. -/
def get_guest_presence (st : SioState) (roomId guestId : String) : Presence :=
  match dictGet st.roomConnections roomId with
  | some users =>
    match dictGet users guestId with
    | some _ => { online := true, offlineSince := none, stale := false }
    | none => { online := false, offlineSince := none, stale := false }
  | none => { online := false, offlineSince := none, stale := false }

/-- `approve:request` handler.  The `state.get(...)` calls raise on a
missing stored playback state; the surrounding `try/except` then swallows
the error before anything was stored, emitted or removed, so that path is a
pure no-op. -/
def approve_request (st : SioState) (sid : String)
    (requestId roomId guestId : Option String) (now : Nat) :
    SioState × List Emitted :=
  match requestId.bind (fun q => (dictGet st.pendingRequests q).map (Prod.mk q)) with
  | none => (st, [.error "Request not found" sid])
  | some (reqId, req) =>
    if is_admin_or_mod (get_user_role_opt st guestId roomId) then
      if req.reqType = "pause" then
        match roomId, roomId.bind (fun rm => dictGet st.videoStates rm) with
        | some rm, some s =>
          let newState : PlaybackState :=
            { currentVideoId := s.currentVideoId
              isPlaying := false
              currentTimestamp := s.currentTimestamp
              lastUpdated := now
              controlledBy := guestId }
          ({ st with videoStates := dictSet st.videoStates rm newState,
                     pendingRequests := dictDel st.pendingRequests reqId },
            [.videoState rm newState,
             .requestApproved (some rm) reqId req.reqType])
        | _, _ => (st, [])
      else if req.reqType = "rewind" then
        match roomId, roomId.bind (fun rm => dictGet st.videoStates rm) with
        | some rm, some s =>
          let seconds := req.seconds.getD 10
          let newTimestamp := max 0 (s.currentTimestamp - seconds)
          let newState : PlaybackState :=
            { currentVideoId := s.currentVideoId
              isPlaying := s.isPlaying
              currentTimestamp := newTimestamp
              lastUpdated := now
              controlledBy := guestId }
          ({ st with videoStates := dictSet st.videoStates rm newState,
                     pendingRequests := dictDel st.pendingRequests reqId },
            [.videoState rm newState,
             .requestApproved (some rm) reqId req.reqType])
        | _, _ => (st, [])
      else
        ({ st with pendingRequests := dictDel st.pendingRequests reqId },
          [.requestApproved roomId reqId req.reqType])
    else (st, [.error "Unauthorized" sid])

/-- Modelled from the spec: the *interpolated* current position of a
playback state at wall-clock `now` — "when playing, true position = last
stored position + elapsed wall time" (spec §3, §4.4).  The code has no such
computation; this definition exists to compare the spec's wording for pause
approval against what `approve_request` actually stores. -/
def interpolatedPosition (s : PlaybackState) (now : Nat) : ℚ :=
  if s.isPlaying then s.currentTimestamp + ((now : ℚ) - (s.lastUpdated : ℚ))
  else s.currentTimestamp

/-- Concrete scenario: viewer "bob" (announced role `"viewer"`) issues all
four control events and each is rejected with a private Unauthorized error,
no broadcast, and untouched state. -/
def c4State : SioState :=
  { roomConnections := [("r1", [("bob", ⟨"sidB", "viewer", "Bob"⟩)])],
    pendingRequests := [],
    videoStates := [("r1", ⟨some "v1", true, 10, 0, some "alice"⟩)] }

/-- State for the C8 scenario: one room, one online guest holding sid
`"s1"`. -/
def c8State : SioState :=
  { roomConnections := [("r1", [("g1", ⟨"s1", "viewer", "Alice"⟩)])],
    pendingRequests := [],
    videoStates := [] }

/-- State for the C6 counterexample: "alice" has already reacted with
"smile" on message `"m1"` of room `"r1"`. -/
def c6State : ChatState :=
  { messages := [], reactions := [(("r1", "m1"), [("smile", ["alice"])])] }

/-- Prior state for the C6 witness: "bob" is the only reactor so far; the
round trip for "alice" must restore exactly that. -/
def c6WitnessState : ChatState :=
  { messages := [], reactions := [(("r1", "m1"), [("smile", ["bob"])])] }

/-- Prior state for the C7 counterexample: room `"r1"` already holds a
message with the client-supplied id `"m1"`. -/
def c7State : ChatState :=
  { messages := [("r1", [⟨"m1", "u0", "U0", "hi", "t0", none⟩])],
    reactions := [] }

/-- Empty store used as the C7 witness scenario. -/
def c7EmptyState : ChatState := { messages := [], reactions := [] }

/-- State for the C1 scenario: admin "alice" online in room `"r1"`, stored
playback state playing `"v1"` at position 10. -/
def c1State : SioState :=
  { roomConnections := [("r1", [("alice", ⟨"sidA", "admin", "Alice"⟩)])],
    pendingRequests := [],
    videoStates := [("r1", ⟨some "v1", true, 10, 0, some "alice"⟩)] }

/-- Stored playback state for the C5 scenario: playing at position 10,
last updated at wall-clock 0. -/
def c5Playback : PlaybackState := ⟨some "v1", true, 10, 0, some "alice"⟩

/-- State for the C5 pause scenario: moderator online, one pending pause
request. -/
def c5State : SioState :=
  { roomConnections := [("r1", [("mod1", ⟨"sidM", "moderator", "Mo"⟩)])],
    pendingRequests := [("q1", ⟨"pause", some "bob", "Bob", some "r1", none, 0⟩)],
    videoStates := [("r1", c5Playback)] }

/-- State for the C5 rewind scenario: moderator online, one pending rewind
request asking for 30 seconds. -/
def c5StateR : SioState :=
  { roomConnections := [("r1", [("mod1", ⟨"sidM", "moderator", "Mo"⟩)])],
    pendingRequests := [("q2", ⟨"rewind", some "bob", "Bob", some "r1", some 30, 0⟩)],
    videoStates := [("r1", c5Playback)] }

/-- A playback control message as received by the socket.io layer: the
caller's sid, the optional payload fields, and the wall-clock stamp the
handler will write. -/
inductive CtrlEvent where
  | play (sid : String) (roomId guestId : Option String) (timestamp : ℚ) (now : Nat)
  | pause (sid : String) (roomId guestId : Option String) (timestamp : ℚ) (now : Nat)
  | seek (sid : String) (roomId guestId : Option String) (timestamp : ℚ) (now : Nat)
  | switch (sid : String) (roomId guestId videoId : Option String) (now : Nat)
deriving DecidableEq, Repr

/-- Dispatch one control message to its handler. -/
def ctrlStep (st : SioState) : CtrlEvent → SioState × List Emitted
  | .play sid r g t n => video_play st sid r g t n
  | .pause sid r g t n => video_pause st sid r g t n
  | .seek sid r g t n => video_seek st sid r g t n
  | .switch sid r g v n => video_switch st sid r g v n

/-- Process a sequence of control messages, concatenating the emitted
events in order. -/
def ctrlRun (st : SioState) : List CtrlEvent → SioState × List Emitted
  | [] => (st, [])
  | e :: rest =>
    let p := ctrlStep st e
    let q := ctrlRun p.1 rest
    (q.1, p.2 ++ q.2)

/-- A control message is accepted (leads to the apply-and-broadcast path)
iff its payload is well-formed and the caller's looked-up role is admin or
moderator — the exact guards of the four handlers. -/
def ctrlAccepted (st : SioState) : CtrlEvent → Bool
  | .play _ r g _ _ =>
    match r with
    | some rid => !(rid == "") && is_admin_or_mod (get_user_role st g rid)
    | none => false
  | .pause _ r g _ _ =>
    match r with
    | some rid => !(rid == "") && is_admin_or_mod (get_user_role st g rid)
    | none => false
  | .seek _ r g _ _ =>
    match r with
    | some rid => !(rid == "") && is_admin_or_mod (get_user_role st g rid)
    | none => false
  | .switch _ r g v _ =>
    match r, v with
    | some rid, some vid =>
      !(rid == "") && !(vid == "") && is_admin_or_mod (get_user_role st g rid)
    | _, _ => false

/-- The room a control message addresses. -/
def eventRoom : CtrlEvent → Option String
  | .play _ r _ _ _ => r
  | .pause _ r _ _ _ => r
  | .seek _ r _ _ _ => r
  | .switch _ r _ _ _ => r

/-- Whether the message is a position-only seek (C2 is about the three
edge events play/pause/switch). -/
def isSeek : CtrlEvent → Bool
  | .seek _ _ _ _ _ => true
  | _ => false

/-- The playing flag an edge event commands: play sets it, pause clears
it, and a media switch resets to paused. -/
def intendedPlaying : CtrlEvent → Bool
  | .play _ _ _ _ _ => true
  | .pause _ _ _ _ _ => false
  | .switch _ _ _ _ _ => false
  | .seek _ _ _ _ _ => true

/-- The media id a switch event carries (none for the other events). -/
def switchVideoId : CtrlEvent → Option String
  | .switch _ _ _ v _ => v
  | _ => none

/-- The last `video_state` broadcast of a trace, with its room. -/
def lastVideoBroadcast : List Emitted → Option (String × PlaybackState)
  | [] => none
  | e :: rest =>
    match lastVideoBroadcast rest with
    | some x => some x
    | none =>
      match e with
      | .videoState r s => some (r, s)
      | _ => none

/-- The last control message of the sequence that the guards accept
(acceptance depends only on `room_connections`, which no control handler
mutates, so it is evaluated against the initial state). -/
def lastAcceptedEvent (st : SioState) : List CtrlEvent → Option CtrlEvent
  | [] => none
  | e :: rest =>
    match lastAcceptedEvent st rest with
    | some e' => some e'
    | none => if ctrlAccepted st e then some e else none

/-- One `join_room` message with its payload fields. -/
structure JoinMsg where
  sid : String
  roomId : Option String
  guestId : Option String
  username : String
  role : String
deriving DecidableEq, Repr

/-- The state after one `join_room` message. -/
def joinStep (st : SioState) (j : JoinMsg) : SioState :=
  (join_room st j.sid j.roomId j.guestId j.username j.role).1

/-- The state after a sequence of `join_room` messages. -/
def joinRun (st : SioState) : List JoinMsg → SioState
  | [] => st
  | j :: rest => joinRun (joinStep st j) rest

/-- The role string announced by the most recent join of (room, guest) in
the sequence, if any. -/
def lastAnnouncedRole (rid gid : String) : List JoinMsg → Option String
  | [] => none
  | j :: rest =>
    match lastAnnouncedRole rid gid rest with
    | some ρ => some ρ
    | none =>
      if j.roomId = some rid ∧ j.guestId = some gid then some j.role else none

/-- Concrete C2 scenario: admin issues play, then switch, then pause; the
pause is the last accepted message. -/
def c2State : SioState :=
  { roomConnections := [("r1", [("alice", ⟨"sidA", "admin", "Alice"⟩)])],
    pendingRequests := [],
    videoStates := [] }

def c2Events : List CtrlEvent :=
  [.play "sidA" (some "r1") (some "alice") 3 1,
   .switch "sidA" (some "r1") (some "alice") (some "v2") 2,
   .pause "sidA" (some "r1") (some "alice") 7 3]

/-- C10 witness scenario: a fresh server, one client joining with an
announced role of `"admin"`. -/
def c10Join : JoinMsg := ⟨"s9", some "r1", some "mallory", "Mallory", "admin"⟩

/-! ## Lemmas and claim theorems -/

theorem dictGet_dictSet_self {κ α : Type} [DecidableEq κ]
    (m : List (κ × α)) (k : κ) (v : α) :
    dictGet (dictSet m k v) k = some v := by
  induction m with
  | nil => simp [dictGet, dictSet]
  | cons hd tl ih =>
    by_cases h : hd.1 = k
    · simp [dictSet, dictGet, h]
    · simp [dictSet, dictGet, h, ih]

theorem dictGet_dictSet_ne {κ α : Type} [DecidableEq κ]
    (m : List (κ × α)) (k k' : κ) (v : α) (h : k ≠ k') :
    dictGet (dictSet m k v) k' = dictGet m k' := by
  induction m with
  | nil => simp [dictGet, dictSet, h]
  | cons hd tl ih =>
    obtain ⟨k0, v0⟩ := hd
    by_cases hk : k0 = k
    · simp [dictSet, dictGet, hk, h]
    · by_cases hk' : k0 = k'
      · simp [dictSet, dictGet, hk, hk', Ne.symm h]
      · simp [dictSet, dictGet, hk, hk', ih]

theorem dictSet_dictSet_self {κ α : Type} [DecidableEq κ]
    (m : List (κ × α)) (k : κ) (v w : α) :
    dictSet (dictSet m k v) k w = dictSet m k w := by
  induction m with
  | nil => simp [dictSet]
  | cons hd tl ih =>
    by_cases h : hd.1 = k
    · simp [dictSet, h]
    · simp [dictSet, h, ih]

/-- Writing back the value already bound to a key is a no-op. -/
theorem dictSet_eq_self_of_dictGet {κ α : Type} [DecidableEq κ]
    (m : List (κ × α)) (k : κ) (v : α) (h : dictGet m k = some v) :
    dictSet m k v = m := by
  induction m with
  | nil => simp [dictGet] at h
  | cons hd tl ih =>
    obtain ⟨k0, v0⟩ := hd
    by_cases hk : k0 = k
    · simp [dictGet, hk] at h
      subst hk
      simp [dictSet, h]
    · simp [dictGet, hk] at h
      simp [dictSet, hk, ih h]

/-- Setting a key absent from the list appends the binding at the end. -/
theorem dictSet_of_not_mem {κ α : Type} [DecidableEq κ]
    (m : List (κ × α)) (k : κ) (v : α) (h : dictGet m k = none) :
    dictSet m k v = m ++ [(k, v)] := by
  induction m with
  | nil => simp [dictSet]
  | cons hd tl ih =>
    by_cases hk : hd.1 = k
    · simp [dictGet, hk] at h
    · simp [dictGet, hk] at h
      simp [dictSet, hk, ih h]

/-- Deleting a key absent from a prefix only acts on the suffix. -/
theorem dictDel_append_singleton {κ α : Type} [DecidableEq κ]
    (m : List (κ × α)) (k : κ) (v : α) (h : dictGet m k = none) :
    dictDel (m ++ [(k, v)]) k = m := by
  induction m with
  | nil => simp [dictDel]
  | cons hd tl ih =>
    by_cases hk : hd.1 = k
    · simp [dictGet, hk] at h
    · simp [dictGet, hk] at h
      simp [dictDel, hk, ih h]

/-! ## Supporting lemmas for the disconnect path -/

theorem removeFirstSid_none_snd (sid : String) (us : List (String × ConnInfo))
    (h : (removeFirstSid sid us).1 = none) : (removeFirstSid sid us).2 = us := by
  induction us with
  | nil => rfl
  | cons hd tl ih =>
    obtain ⟨gid, info⟩ := hd
    by_cases hs : info.sid = sid
    · simp [removeFirstSid, hs] at h
    · simp [removeFirstSid, hs] at h ⊢
      exact ih h

theorem disconnectRooms_fst (sid : String)
    (conns : List (String × List (String × ConnInfo))) :
    (disconnectRooms sid conns).1 =
      conns.map (fun p => (p.1, (removeFirstSid sid p.2).2)) := by
  induction conns with
  | nil => rfl
  | cons hd tl ih =>
    obtain ⟨rid, users⟩ := hd
    simp only [disconnectRooms]
    rcases hfound : removeFirstSid sid users with ⟨found, users'⟩
    cases found with
    | some p =>
      obtain ⟨gid, uname⟩ := p
      simp [hfound, ih]
    | none =>
      have : users' = users := by
        have := removeFirstSid_none_snd sid users (by rw [hfound])
        rw [hfound] at this; exact this
      simp [hfound, ih, this]

theorem dictGet_disconnectMap (sid : String)
    (m : List (String × List (String × ConnInfo))) (k : String) :
    dictGet (m.map (fun p => (p.1, (removeFirstSid sid p.2).2))) k =
      (dictGet m k).map (fun us => (removeFirstSid sid us).2) := by
  induction m with
  | nil => rfl
  | cons hd tl ih =>
    by_cases h : hd.1 = k
    · simp [dictGet, h]
    · simp [dictGet, h, ih]

theorem disconnectRooms_emits (sid : String)
    (conns : List (String × List (String × ConnInfo)))
    (rid gid uname : String) (users : List (String × ConnInfo))
    (users' : List (String × ConnInfo))
    (hroom : dictGet conns rid = some users)
    (hfind : removeFirstSid sid users = (some (gid, uname), users')) :
    Emitted.userLeft rid gid uname ∈ (disconnectRooms sid conns).2 := by
  induction conns with
  | nil => simp [dictGet] at hroom
  | cons hd tl ih =>
    obtain ⟨r0, us0⟩ := hd
    by_cases hr : r0 = rid
    · subst hr
      simp [dictGet] at hroom
      subst hroom
      simp only [disconnectRooms, hfind]
      rcases disconnectRooms sid tl with ⟨rest', emits⟩
      simp
    · simp [dictGet, hr] at hroom
      have hmem := ih hroom
      simp only [disconnectRooms]
      rcases hfound : removeFirstSid sid us0 with ⟨found, us0'⟩
      rcases hrec : disconnectRooms sid tl with ⟨rest', emits⟩
      rw [hrec] at hmem
      cases found with
      | some p =>
        obtain ⟨g0, n0⟩ := p
        simpa using Or.inr hmem
      | none => simpa using hmem

/-! ## Claim theorems -/

/-- C3: after `update_permissions`, `promote_guest` or `demote_guest`, the
invariant "role = Moderator implies can_chat = can_voice = true" holds:
promote forces both flags true, demote resets both to false (and the role
to viewer), and a permission patch applied to a moderator yields both flags
true regardless of the patch content. -/
theorem moderation_ops_preserve_moderator_invariant
    (g : Guest) (patch : List (String × Bool)) :
    moderatorInvariant (update_permissions g patch) ∧
    moderatorInvariant (promote_guest g) ∧
    moderatorInvariant (demote_guest g) := by
  refine ⟨?_, ?_, ?_⟩
  · intro hrole
    have hg : g.role = GuestRole.moderator := hrole
    simp [update_permissions, hg]
    constructor
    · rw [dictGet_dictSet_ne _ "can_voice" "can_chat" _ (by decide),
        dictGet_dictSet_self]
    · rw [dictGet_dictSet_self]
  · intro _
    simp only [promote_guest]
    split
    · exact ⟨by simp [dictGet], by simp [dictGet]⟩
    · dsimp only
      constructor
      · rw [dictGet_dictSet_ne _ "can_voice" "can_chat" _ (by decide),
          dictGet_dictSet_self]
      · rw [dictGet_dictSet_self]
  · intro hrole
    simp [demote_guest] at hrole

/-- C4: a well-formed playback control event (play, pause, seek, switch)
from a caller whose looked-up role is neither moderator nor admin returns
exactly one `error {'message': 'Unauthorized'}` event to the caller's own
sid, broadcasts nothing, and leaves the whole server state (including the
stored playback state) unchanged; a guest unknown to the registry (or a
whole unknown room) yields role `"viewer"`. -/
theorem unauthorized_control_is_rejected_privately
    (st : SioState) (sid rid vid : String) (g : Option String)
    (t : ℚ) (now : Nat)
    (hrid : rid ≠ "") (hvid : vid ≠ "")
    (hrole : is_admin_or_mod (get_user_role st g rid) = false) :
    video_play st sid (some rid) g t now = (st, [.error "Unauthorized" sid]) ∧
    video_pause st sid (some rid) g t now = (st, [.error "Unauthorized" sid]) ∧
    video_seek st sid (some rid) g t now = (st, [.error "Unauthorized" sid]) ∧
    video_switch st sid (some rid) g (some vid) now =
      (st, [.error "Unauthorized" sid]) ∧
    (dictGet st.roomConnections rid = none → get_user_role st g rid = "viewer") ∧
    (∀ users g', dictGet st.roomConnections rid = some users →
      dictGet users g' = none → get_user_role st (some g') rid = "viewer") := by
  refine ⟨?_, ?_, ?_, ?_, ?_, ?_⟩
  · simp [video_play, hrid, hrole]
  · simp [video_pause, hrid, hrole]
  · simp [video_seek, hrid, hrole]
  · simp [video_switch, hrid, hvid, hrole]
  · intro h; simp [get_user_role, h]
  · intro users g' hu hg
    simp [get_user_role, hu, hg]

theorem unauthorized_control_is_rejected_privately_witness :
    video_play c4State "sidB" (some "r1") (some "bob") 5 3 =
      (c4State, [.error "Unauthorized" "sidB"]) ∧
    video_switch c4State "sidB" (some "r1") (some "bob") (some "v2") 3 =
      (c4State, [.error "Unauthorized" "sidB"]) := by
  have h := unauthorized_control_is_rejected_privately c4State "sidB" "r1" "v2"
    (some "bob") 5 3 (by decide) (by decide) (by decide)
  exact ⟨h.1, h.2.2.2.1⟩

/-- C8 counterexample: disconnecting sid `"s1"` does remove the handle and
broadcast `user_left`, but no "offline since now" record exists anywhere —
the subsequent presence query returns `offline_since = None`, not the
disconnect time, for every possible timestamp. -/
theorem disconnect_offline_since_counterexample :
    (disconnect c8State "s1").2 = [.userLeft "r1" "g1" "Alice"] ∧
    (disconnect c8State "s1").1.roomConnections = [("r1", [])] ∧
    get_guest_presence (disconnect c8State "s1").1 "r1" "g1" =
      { online := false, offlineSince := none, stale := false } := by
  decide

/-- C8 amended: a disconnect removes the guest's connection handle from the
room's online set and broadcasts a guest-left event, and a subsequent
presence query reports the guest offline — but with `offline_since = None`:
no offline-since timestamp is recorded. -/
theorem disconnect_removes_handle_and_reports_offline
    (st : SioState) (sid rid gid uname : String)
    (users users' : List (String × ConnInfo))
    (hroom : dictGet st.roomConnections rid = some users)
    (hfind : removeFirstSid sid users = (some (gid, uname), users'))
    (hgone : dictGet users' gid = none) :
    Emitted.userLeft rid gid uname ∈ (disconnect st sid).2 ∧
    dictGet (disconnect st sid).1.roomConnections rid = some users' ∧
    get_guest_presence (disconnect st sid).1 rid gid =
      { online := false, offlineSince := none, stale := false } := by
  have hconn : dictGet (disconnect st sid).1.roomConnections rid = some users' := by
    show dictGet (disconnectRooms sid st.roomConnections).1 rid = some users'
    rw [disconnectRooms_fst, dictGet_disconnectMap, hroom]
    simp [hfind]
  refine ⟨?_, hconn, ?_⟩
  · exact disconnectRooms_emits sid st.roomConnections rid gid uname users users'
      hroom hfind
  · simp [get_guest_presence, hconn, hgone]

/-- Appending a fresh element and erasing it again is the identity. -/
theorem erase_appended (l : List String) (u : String) (h : u ∉ l) :
    (l ++ [u]).erase u = l := by
  rw [List.erase_append_right _ h]
  simp

/-- C6 counterexample: when the author had ALREADY reacted with the emoji,
`add_reaction` is a no-op (returns `false`) but `remove_reaction` deletes
the pre-existing reaction, so the add/remove pair does not restore
`get_reactions` to its prior state. -/
theorem reaction_roundtrip_counterexample :
    get_reactions
        ((remove_reaction (add_reaction c6State "r1" "m1" "smile" "alice").1
          "r1" "m1" "smile" "alice").1) "r1" "m1" = [] ∧
    get_reactions c6State "r1" "m1" = [("smile", ["alice"])] := by
  decide

/-- Core of the C6 round-trip at the level of one message's reaction hash:
the remove step applied to the hash produced by the add step restores the
original hash, provided the author was not already a reactor and the
stored id list for the emoji is not the (never-persisted) empty list. -/
theorem reactionHash_roundtrip (h : List (String × List String))
    (emoji u : String)
    (hnotin : u ∉ (dictGet h emoji).getD [])
    (hne : dictGet h emoji ≠ some []) :
    (if ((dictGet h emoji).getD [] ++ [u]).erase u = [] then
        dictDel (dictSet h emoji ((dictGet h emoji).getD [] ++ [u])) emoji
      else
        dictSet (dictSet h emoji ((dictGet h emoji).getD [] ++ [u])) emoji
          (((dictGet h emoji).getD [] ++ [u]).erase u)) = h := by
  rw [erase_appended _ _ hnotin]
  rcases hop : dictGet h emoji with _ | l
  · simp only [Option.getD_none, List.nil_append]
    rw [if_pos trivial, dictSet_of_not_mem h emoji _ hop,
      dictDel_append_singleton h emoji _ hop]
  · have hl : l ≠ [] := fun e => hne (by rw [hop, e])
    simp only [Option.getD_some]
    rw [if_neg hl, dictSet_dictSet_self, dictSet_eq_self_of_dictGet h emoji l hop]

/-- C6 amended: `add_reaction` then `remove_reaction` for the same
(room, message, emoji, author) restores `get_reactions` for that message to
its prior value, provided the author was not already a reactor for that
emoji (and the stored author list, if present, is non-empty — empty lists
are never persisted by the service). -/
theorem reaction_roundtrip_restores (st : ChatState) (r m emoji u : String)
    (hnotin : u ∉ (dictGet (get_reactions st r m) emoji).getD [])
    (hne : dictGet (get_reactions st r m) emoji ≠ some []) :
    get_reactions
        ((remove_reaction (add_reaction st r m emoji u).1 r m emoji u).1) r m =
      get_reactions st r m := by
  simp only [get_reactions] at hnotin hne
  have hcore := reactionHash_roundtrip ((dictGet st.reactions (r, m)).getD [])
    emoji u hnotin hne
  rw [erase_appended _ _ hnotin] at hcore
  have hadd : (add_reaction st r m emoji u).1 =
      { st with
          reactions := dictSet st.reactions (r, m)
              (dictSet ((dictGet st.reactions (r, m)).getD []) emoji
                ((dictGet ((dictGet st.reactions (r, m)).getD []) emoji).getD []
                  ++ [u])) } := by
    simp only [add_reaction]
    rw [if_neg hnotin]
  show (dictGet (remove_reaction (add_reaction st r m emoji u).1
      r m emoji u).1.reactions (r, m)).getD [] =
    (dictGet st.reactions (r, m)).getD []
  rw [hadd]
  simp only [remove_reaction, dictGet_dictSet_self, Option.getD_some]
  rw [if_pos (List.mem_append_right _ (List.mem_singleton_self u))]
  rw [erase_appended _ _ hnotin]
  rw [dictSet_dictSet_self, dictGet_dictSet_self]
  simp only [Option.getD_some]
  exact hcore

theorem reaction_roundtrip_restores_witness :
    get_reactions
        ((remove_reaction (add_reaction c6WitnessState "r1" "m1" "smile"
          "alice").1 "r1" "m1" "smile" "alice").1) "r1" "m1" =
      get_reactions c6WitnessState "r1" "m1" :=
  reaction_roundtrip_restores c6WitnessState "r1" "m1" "smile" "alice"
    (by decide) (by decide)

/-- C7 counterexample: if the client-supplied id already names a stored
message, both `add_message` calls return that original message and the log
grows by ZERO entries across the two calls, not one. -/
theorem post_twice_grow_counterexample :
    ((dictGet c7State.messages "r1").getD []).length = 1 ∧
    (add_message c7State "r1" "u1" "Alice" "hello" none (some "m1") none
      "gen1" "tg1").2 = ⟨"m1", "u0", "U0", "hi", "t0", none⟩ ∧
    ((dictGet (add_message
        ((add_message c7State "r1" "u1" "Alice" "hello" none (some "m1") none
          "gen1" "tg1").1)
        "r1" "u1" "Alice" "hello" none (some "m1") none
        "gen2" "tg2").1.messages "r1").getD []).length = 1 := by
  decide

theorem pyOrStr_some_of_ne (s d : String) (h : s ≠ "") :
    pyOrStr (some s) d = s := by
  simp [pyOrStr, h]

theorem findById_append_self (l : List ChatMessage) (msg : ChatMessage)
    (h : findById l msg.id = none) :
    findById (l ++ [msg]) msg.id = some msg := by
  induction l with
  | nil => simp [findById]
  | cons hd tl ih =>
    by_cases hh : hd.id = msg.id
    · simp [findById, hh] at h
    · simp only [List.cons_append, findById, hh, if_neg hh]
      exact ih (by simpa [findById, hh] using h)

theorem ltrimLast_of_le (l : List ChatMessage) (n : Nat) (h : l.length ≤ n) :
    ltrimLast l n = l := by
  unfold ltrimLast
  rw [Nat.sub_eq_zero_of_le h, List.drop_zero]

/-- C7 amended: posting twice with the same client-supplied id into the
same room returns the same message object both times (the second call
returns the stored original even when the text differs) and grows the log
by exactly one entry — provided the id was not already present in the log
and the log held fewer than 200 (`MAX_MESSAGES`) entries (a full log is
trimmed back, so it cannot grow). -/
theorem post_message_idempotent_fresh
    (st : ChatState) (room mid : String) (hmid : mid ≠ "")
    (log : List ChatMessage)
    (hlog : (dictGet st.messages room).getD [] = log)
    (hfresh : findById log mid = none)
    (hlen : log.length < MAX_MESSAGES)
    (u1 n1 t1 u2 n2 t2 : String) (rp1 rp2 : Option String)
    (ts1 ts2 : Option String) (g1 gt1 g2 gt2 : String) :
    (add_message
        (add_message st room u1 n1 t1 rp1 (some mid) ts1 g1 gt1).1
        room u2 n2 t2 rp2 (some mid) ts2 g2 gt2).2 =
      (add_message st room u1 n1 t1 rp1 (some mid) ts1 g1 gt1).2 ∧
    (add_message
        (add_message st room u1 n1 t1 rp1 (some mid) ts1 g1 gt1).1
        room u2 n2 t2 rp2 (some mid) ts2 g2 gt2).1 =
      (add_message st room u1 n1 t1 rp1 (some mid) ts1 g1 gt1).1 ∧
    ((dictGet (add_message
        (add_message st room u1 n1 t1 rp1 (some mid) ts1 g1 gt1).1
        room u2 n2 t2 rp2 (some mid) ts2 g2 gt2).1.messages room).getD
        []).length = log.length + 1 := by
  have hm : pyOrStr (some mid) g1 = mid := pyOrStr_some_of_ne mid g1 hmid
  have hm2 : pyOrStr (some mid) g2 = mid := pyOrStr_some_of_ne mid g2 hmid
  have h1 : add_message st room u1 n1 t1 rp1 (some mid) ts1 g1 gt1 =
      ({ st with
            messages := dictSet st.messages room
                (log ++ [⟨mid, u1, n1, t1, pyOrStr ts1 gt1, rp1⟩]) },
        ⟨mid, u1, n1, t1, pyOrStr ts1 gt1, rp1⟩) := by
    simp only [add_message, hm, hlog, hfresh]
    rw [ltrimLast_of_le _ _ (by simpa using Nat.succ_le_of_lt hlen)]
  have hfind2 : findById
      (log ++ [⟨mid, u1, n1, t1, pyOrStr ts1 gt1, rp1⟩]) mid =
      some ⟨mid, u1, n1, t1, pyOrStr ts1 gt1, rp1⟩ :=
    findById_append_self log ⟨mid, u1, n1, t1, pyOrStr ts1 gt1, rp1⟩ hfresh
  have h2 : add_message
      (add_message st room u1 n1 t1 rp1 (some mid) ts1 g1 gt1).1
      room u2 n2 t2 rp2 (some mid) ts2 g2 gt2 =
      ((add_message st room u1 n1 t1 rp1 (some mid) ts1 g1 gt1).1,
        ⟨mid, u1, n1, t1, pyOrStr ts1 gt1, rp1⟩) := by
    rw [h1]
    simp only [add_message, hm2, dictGet_dictSet_self, Option.getD_some, hfind2]
  refine ⟨?_, ?_, ?_⟩
  · rw [h2, h1]
  · rw [h2]
  · rw [h2, h1]
    simp [dictGet_dictSet_self]

theorem post_message_idempotent_fresh_witness :
    (add_message
        (add_message c7EmptyState "r1" "u1" "Alice" "hi" none (some "m1")
          (some "t1") "g1" "tg1").1
        "r1" "u2" "Bobby" "hi-changed" none (some "m1") (some "t2")
        "g2" "tg2").2 =
      (add_message c7EmptyState "r1" "u1" "Alice" "hi" none (some "m1")
        (some "t1") "g1" "tg1").2 ∧
    (add_message
        (add_message c7EmptyState "r1" "u1" "Alice" "hi" none (some "m1")
          (some "t1") "g1" "tg1").1
        "r1" "u2" "Bobby" "hi-changed" none (some "m1") (some "t2")
        "g2" "tg2").1 =
      (add_message c7EmptyState "r1" "u1" "Alice" "hi" none (some "m1")
        (some "t1") "g1" "tg1").1 ∧
    ((dictGet (add_message
        (add_message c7EmptyState "r1" "u1" "Alice" "hi" none (some "m1")
          (some "t1") "g1" "tg1").1
        "r1" "u2" "Bobby" "hi-changed" none (some "m1") (some "t2")
        "g2" "tg2").1.messages "r1").getD []).length =
      ([] : List ChatMessage).length + 1 :=
  post_message_idempotent_fresh c7EmptyState "r1" "m1" (by decide) []
    (by decide) (by decide) (by decide)
    "u1" "Alice" "hi" "u2" "Bobby" "hi-changed" none none
    (some "t1") (some "t2") "g1" "tg1" "g2" "tg2"

/-- C1 counterexample: a position-only seek with delta 0 (< 1.0s) from the
stored position — same media, same playing flag — is nevertheless
broadcast, and the stored playback state changes (a fresh `last_updated`
stamp is written).  No sync-tolerance suppression exists in `video_seek`. -/
theorem small_seek_suppression_counterexample :
    |(10 : ℚ) - 10| < 1 ∧
    (video_seek c1State "sidA" (some "r1") (some "alice") 10 1).2 =
      [.videoState "r1" ⟨some "v1", true, 10, 1, some "alice"⟩] ∧
    dictGet (video_seek c1State "sidA" (some "r1") (some "alice")
        10 1).1.videoStates "r1" ≠
      dictGet c1State.videoStates "r1" := by
  refine ⟨by norm_num, by decide, by decide⟩

/-- C1 amended: an authorized position-only update whose delta from the
stored position is strictly below 1.0s is NOT suppressed: `video_seek`
stores the new state (same media id, preserved playing flag, new position)
and broadcasts it as the first emitted event. -/
theorem seek_within_tolerance_still_applied
    (st : SioState) (sid rid : String) (g : Option String) (t : ℚ) (now : Nat)
    (s : PlaybackState)
    (hrid : rid ≠ "")
    (hstate : dictGet st.videoStates rid = some s)
    (hauth : is_admin_or_mod (get_user_role st g rid) = true)
    (_hdelta : |t - s.currentTimestamp| < 1) :
    dictGet (video_seek st sid (some rid) g t now).1.videoStates rid =
      some ⟨s.currentVideoId, s.isPlaying, t, now, g⟩ ∧
    (video_seek st sid (some rid) g t now).2.head? =
      some (.videoState rid ⟨s.currentVideoId, s.isPlaying, t, now, g⟩) := by
  simp [video_seek, hrid, hauth, hstate, dictGet_dictSet_self]

theorem seek_within_tolerance_still_applied_witness :
    dictGet (video_seek c1State "sidA" (some "r1") (some "alice")
        10 1).1.videoStates "r1" =
      some ⟨some "v1", true, 10, 1, some "alice"⟩ ∧
    (video_seek c1State "sidA" (some "r1") (some "alice") 10 1).2.head? =
      some (.videoState "r1" ⟨some "v1", true, 10, 1, some "alice"⟩) :=
  seek_within_tolerance_still_applied c1State "sidA" "r1" (some "alice")
    10 1 ⟨some "v1", true, 10, 0, some "alice"⟩
    (by decide) (by decide) (by decide) (by simp)

/-- C5 counterexample: approving a pause request at wall-clock 5, five
seconds after a playing state was stored at position 10, freezes the video
at the STORED position 10 — not at the interpolated position 15 the claim
describes.  No interpolation happens anywhere in `approve_request`. -/
theorem approve_pause_not_interpolated_counterexample :
    dictGet (approve_request c5State "sidM" (some "q1") (some "r1")
        (some "mod1") 5).1.videoStates "r1" =
      some ⟨some "v1", false, 10, 5, some "mod1"⟩ ∧
    interpolatedPosition c5Playback 5 = 15 ∧
    (10 : ℚ) ≠ 15 := by
  refine ⟨by decide, ?_, by decide⟩
  simp [interpolatedPosition, c5Playback]
  norm_num

/-- C5 amended: approving a pending rewind request sets the position to
`max 0 (stored position - seconds)` preserving the stored playing flag;
approving a pending pause request freezes at the stored (not interpolated)
position with `is_playing = false`; both store the new state, broadcast it,
remove the request from the pending set and notify the room. -/
theorem approve_request_applies_effect
    (st : SioState) (sid qid rm : String) (g : Option String)
    (req : PendingRequest) (s : PlaybackState) (now : Nat)
    (hreq : dictGet st.pendingRequests qid = some req)
    (hauth : is_admin_or_mod (get_user_role st g rm) = true)
    (hstate : dictGet st.videoStates rm = some s) :
    (∀ secs, req.reqType = "rewind" → req.seconds = some secs →
      approve_request st sid (some qid) (some rm) g now =
        ({ st with
            videoStates := dictSet st.videoStates rm
              ⟨s.currentVideoId, s.isPlaying,
                max 0 (s.currentTimestamp - secs), now, g⟩,
            pendingRequests := dictDel st.pendingRequests qid },
          [.videoState rm ⟨s.currentVideoId, s.isPlaying,
              max 0 (s.currentTimestamp - secs), now, g⟩,
           .requestApproved (some rm) qid "rewind"])) ∧
    (req.reqType = "pause" →
      approve_request st sid (some qid) (some rm) g now =
        ({ st with
            videoStates := dictSet st.videoStates rm
              ⟨s.currentVideoId, false, s.currentTimestamp, now, g⟩,
            pendingRequests := dictDel st.pendingRequests qid },
          [.videoState rm ⟨s.currentVideoId, false, s.currentTimestamp, now, g⟩,
           .requestApproved (some rm) qid "pause"])) := by
  constructor
  · intro secs hty hsecs
    simp [approve_request, hreq, get_user_role_opt, hauth, hstate, hty, hsecs]
  · intro hty
    simp [approve_request, hreq, get_user_role_opt, hauth, hstate, hty]

theorem approve_request_applies_effect_witness :
    approve_request c5StateR "sidM" (some "q2") (some "r1") (some "mod1") 7 =
      (⟨[("r1", [("mod1", ⟨"sidM", "moderator", "Mo"⟩)])], [],
        [("r1", ⟨some "v1", true, 0, 7, some "mod1"⟩)]⟩,
       [.videoState "r1" ⟨some "v1", true, 0, 7, some "mod1"⟩,
        .requestApproved (some "r1") "q2" "rewind"]) ∧
    approve_request c5State "sidM" (some "q1") (some "r1") (some "mod1") 5 =
      (⟨[("r1", [("mod1", ⟨"sidM", "moderator", "Mo"⟩)])], [],
        [("r1", ⟨some "v1", false, 10, 5, some "mod1"⟩)]⟩,
       [.videoState "r1" ⟨some "v1", false, 10, 5, some "mod1"⟩,
        .requestApproved (some "r1") "q1" "pause"]) := by
  constructor
  · have h := (approve_request_applies_effect c5StateR "sidM" "q2" "r1"
      (some "mod1") ⟨"rewind", some "bob", "Bob", some "r1", some 30, 0⟩
      c5Playback 7 (by decide) (by decide) (by decide)).1 30 rfl rfl
    have hmax : max (0 : ℚ) (10 - 30) = 0 := max_eq_left (by norm_num)
    rw [h]
    simp only [c5Playback]
    rw [hmax]
    decide
  · have h := (approve_request_applies_effect c5State "sidM" "q1" "r1"
      (some "mod1") ⟨"pause", some "bob", "Bob", some "r1", none, 0⟩
      c5Playback 5 (by decide) (by decide) (by decide)).2 rfl
    rw [h]; decide

theorem disconnect_removes_handle_and_reports_offline_witness :
    Emitted.userLeft "r1" "g1" "Alice" ∈ (disconnect c8State "s1").2 ∧
    dictGet (disconnect c8State "s1").1.roomConnections "r1" = some [] ∧
    get_guest_presence (disconnect c8State "s1").1 "r1" "g1" =
      { online := false, offlineSince := none, stale := false } :=
  disconnect_removes_handle_and_reports_offline c8State "s1" "r1" "g1" "Alice"
    [("g1", ⟨"s1", "viewer", "Alice"⟩)] [] (by decide) (by decide) (by decide)

/-! ## Supporting lemmas for the control-event run (C2) -/

theorem ctrlStep_roomConnections (st : SioState) (e : CtrlEvent) :
    (ctrlStep st e).1.roomConnections = st.roomConnections := by
  cases e with
  | play sid r g t n =>
    cases r
    · rfl
    · simp only [ctrlStep, video_play]
      repeat' split
      all_goals rfl
  | pause sid r g t n =>
    cases r
    · rfl
    · simp only [ctrlStep, video_pause]
      repeat' split
      all_goals rfl
  | seek sid r g t n =>
    cases r
    · rfl
    · simp only [ctrlStep, video_seek]
      repeat' split
      all_goals rfl
  | switch sid r g v n =>
    cases r
    · rfl
    · cases v
      · rfl
      · simp only [ctrlStep, video_switch]
        repeat' split
        all_goals rfl

theorem get_user_role_congr (st st' : SioState)
    (h : st'.roomConnections = st.roomConnections)
    (g : Option String) (r : String) :
    get_user_role st' g r = get_user_role st g r := by
  simp only [get_user_role, h]

theorem ctrlAccepted_congr (st st' : SioState)
    (h : st'.roomConnections = st.roomConnections) (e : CtrlEvent) :
    ctrlAccepted st' e = ctrlAccepted st e := by
  cases e with
  | play sid r g t n =>
    cases r <;> simp only [ctrlAccepted, get_user_role_congr st st' h]
  | pause sid r g t n =>
    cases r <;> simp only [ctrlAccepted, get_user_role_congr st st' h]
  | seek sid r g t n =>
    cases r <;> simp only [ctrlAccepted, get_user_role_congr st st' h]
  | switch sid r g v n =>
    cases r <;> cases v <;>
      simp only [ctrlAccepted, get_user_role_congr st st' h]

theorem lastAcceptedEvent_congr (st st' : SioState)
    (h : st'.roomConnections = st.roomConnections) (es : List CtrlEvent) :
    lastAcceptedEvent st' es = lastAcceptedEvent st es := by
  induction es with
  | nil => rfl
  | cons e rest ih =>
    simp only [lastAcceptedEvent, ih, ctrlAccepted_congr st st' h e]

theorem lastVideoBroadcast_append (a b : List Emitted) :
    lastVideoBroadcast (a ++ b) =
      match lastVideoBroadcast b with
      | some x => some x
      | none => lastVideoBroadcast a := by
  induction a with
  | nil =>
    simp only [List.nil_append, lastVideoBroadcast]
    cases lastVideoBroadcast b <;> rfl
  | cons e a ih =>
    simp only [List.cons_append, lastVideoBroadcast, List.append_eq]
    rw [ih]
    cases lastVideoBroadcast b <;> cases lastVideoBroadcast a <;> rfl

/-- An accepted non-seek control event broadcasts exactly one playback
state, stores the same state, and that state realises the event's intended
playing flag and (for a switch) media id. -/
theorem ctrlStep_accepted (st : SioState) (e : CtrlEvent) (r : String)
    (hroom : eventRoom e = some r) (hacc : ctrlAccepted st e = true)
    (hnoseek : isSeek e = false) :
    ∃ ns : PlaybackState,
      lastVideoBroadcast (ctrlStep st e).2 = some (r, ns) ∧
      dictGet (ctrlStep st e).1.videoStates r = some ns ∧
      ns.isPlaying = intendedPlaying e ∧
      (∀ vid, switchVideoId e = some vid → ns.currentVideoId = some vid) := by
  cases e with
  | play sid ro g t n =>
    cases ro with
    | none => simp [ctrlAccepted] at hacc
    | some rid =>
      simp only [eventRoom, Option.some.injEq] at hroom
      subst hroom
      simp only [ctrlAccepted, Bool.and_eq_true, Bool.not_eq_true',
        beq_eq_false_iff_ne, ne_eq] at hacc
      obtain ⟨hne, hauth⟩ := hacc
      refine ⟨⟨(dictGet st.videoStates rid).bind (·.currentVideoId), true, t, n, g⟩,
        ?_, ?_, rfl, ?_⟩
      · simp [ctrlStep, video_play, hne, hauth, lastVideoBroadcast]
      · simp [ctrlStep, video_play, hne, hauth, dictGet_dictSet_self]
      · intro vid hv; simp [switchVideoId] at hv
  | pause sid ro g t n =>
    cases ro with
    | none => simp [ctrlAccepted] at hacc
    | some rid =>
      simp only [eventRoom, Option.some.injEq] at hroom
      subst hroom
      simp only [ctrlAccepted, Bool.and_eq_true, Bool.not_eq_true',
        beq_eq_false_iff_ne, ne_eq] at hacc
      obtain ⟨hne, hauth⟩ := hacc
      refine ⟨⟨(dictGet st.videoStates rid).bind (·.currentVideoId), false, t, n, g⟩,
        ?_, ?_, rfl, ?_⟩
      · simp only [ctrlStep, video_pause]
        rw [if_neg hne, if_pos hauth]
        by_cases hd : (dismissOfType st.pendingRequests rid "pause").1 = [] <;>
          simp [hd, lastVideoBroadcast]
      · simp only [ctrlStep, video_pause]
        rw [if_neg hne, if_pos hauth]
        simp [dictGet_dictSet_self]
      · intro vid hv; simp [switchVideoId] at hv
  | seek sid ro g t n =>
    simp [isSeek] at hnoseek
  | switch sid ro g v n =>
    cases ro with
    | none => simp [ctrlAccepted] at hacc
    | some rid =>
      cases v with
      | none => simp [ctrlAccepted] at hacc
      | some vid =>
        simp only [eventRoom, Option.some.injEq] at hroom
        subst hroom
        simp only [ctrlAccepted, Bool.and_eq_true, Bool.not_eq_true',
          beq_eq_false_iff_ne, ne_eq] at hacc
        obtain ⟨⟨hne, hvne⟩, hauth⟩ := hacc
        refine ⟨⟨some vid, false, 0, n, g⟩, ?_, ?_, rfl, ?_⟩
        · simp [ctrlStep, video_switch, hne, hvne, hauth, lastVideoBroadcast]
        · simp [ctrlStep, video_switch, hne, hvne, hauth, dictGet_dictSet_self]
        · intro vid' hv
          simp only [switchVideoId, Option.some.injEq] at hv
          rw [hv]

/-- A rejected control event broadcasts no playback state and leaves the
stored playback states untouched. -/
theorem ctrlStep_rejected (st : SioState) (e : CtrlEvent)
    (hacc : ctrlAccepted st e = false) :
    lastVideoBroadcast (ctrlStep st e).2 = none ∧
    (ctrlStep st e).1.videoStates = st.videoStates := by
  cases e with
  | play sid ro g t n =>
    cases ro with
    | none => simp [ctrlStep, video_play, lastVideoBroadcast]
    | some rid =>
      by_cases hr : rid = ""
      · simp [ctrlStep, video_play, hr, lastVideoBroadcast]
      · simp only [ctrlAccepted] at hacc
        cases haim : is_admin_or_mod (get_user_role st g rid) with
        | true => rw [haim] at hacc; simp [hr] at hacc
        | false => simp [ctrlStep, video_play, hr, haim, lastVideoBroadcast]
  | pause sid ro g t n =>
    cases ro with
    | none => simp [ctrlStep, video_pause, lastVideoBroadcast]
    | some rid =>
      by_cases hr : rid = ""
      · simp [ctrlStep, video_pause, hr, lastVideoBroadcast]
      · simp only [ctrlAccepted] at hacc
        cases haim : is_admin_or_mod (get_user_role st g rid) with
        | true => rw [haim] at hacc; simp [hr] at hacc
        | false => simp [ctrlStep, video_pause, hr, haim, lastVideoBroadcast]
  | seek sid ro g t n =>
    cases ro with
    | none => simp [ctrlStep, video_seek, lastVideoBroadcast]
    | some rid =>
      by_cases hr : rid = ""
      · simp [ctrlStep, video_seek, hr, lastVideoBroadcast]
      · simp only [ctrlAccepted] at hacc
        cases haim : is_admin_or_mod (get_user_role st g rid) with
        | true => rw [haim] at hacc; simp [hr] at hacc
        | false => simp [ctrlStep, video_seek, hr, haim, lastVideoBroadcast]
  | switch sid ro g v n =>
    cases ro with
    | none => simp [ctrlStep, video_switch, lastVideoBroadcast]
    | some rid =>
      cases v with
      | none => simp [ctrlStep, video_switch, lastVideoBroadcast]
      | some vid =>
        by_cases hr : rid = ""
        · simp [ctrlStep, video_switch, hr, lastVideoBroadcast]
        · by_cases hv : vid = ""
          · simp [ctrlStep, video_switch, hv, lastVideoBroadcast]
          · simp only [ctrlAccepted] at hacc
            cases haim : is_admin_or_mod (get_user_role st g rid) with
            | true => rw [haim] at hacc; simp [hr, hv] at hacc
            | false =>
              simp [ctrlStep, video_switch, hr, hv, haim, lastVideoBroadcast]

theorem lastAcceptedEvent_none (st : SioState) (es : List CtrlEvent)
    (h : lastAcceptedEvent st es = none) :
    ∀ e ∈ es, ctrlAccepted st e = false := by
  induction es with
  | nil => simp
  | cons e rest ih =>
    simp only [lastAcceptedEvent] at h
    rcases hr : lastAcceptedEvent st rest with _ | e'
    · rw [hr] at h
      intro x hx
      rcases List.mem_cons.mp hx with rfl | hx'
      · by_cases hc : ctrlAccepted st x = true
        · rw [if_pos hc] at h; cases h
        · exact Bool.eq_false_iff.mpr hc
      · exact ih hr x hx'
    · rw [hr] at h; cases h

theorem ctrlRun_rejected_all (st : SioState) (es : List CtrlEvent)
    (h : ∀ e ∈ es, ctrlAccepted st e = false) :
    lastVideoBroadcast (ctrlRun st es).2 = none ∧
    (ctrlRun st es).1.videoStates = st.videoStates := by
  induction es generalizing st with
  | nil => exact ⟨rfl, rfl⟩
  | cons e rest ih =>
    have he := h e (List.mem_cons_self _ _)
    have hstep := ctrlStep_rejected st e he
    have hconns := ctrlStep_roomConnections st e
    have hrest : ∀ e' ∈ rest, ctrlAccepted (ctrlStep st e).1 e' = false :=
      fun e' hm =>
        (ctrlAccepted_congr st _ hconns e').trans (h e' (List.mem_cons_of_mem _ hm))
    have ihr := ih (ctrlStep st e).1 hrest
    constructor
    · simp only [ctrlRun]
      rw [lastVideoBroadcast_append, ihr.1, hstep.1]
    · simp only [ctrlRun]
      rw [ihr.2, hstep.2]

/-- C2: in any sequence of play/pause/switch control messages for one room,
if any message is accepted then the last `video_state` broadcast of the run
equals the final stored playback state, its playing flag is the one the
last accepted message commands (play → playing, pause/switch → paused), and
a last accepted switch puts its media id in the broadcast state: edges are
applied and broadcast, never suppressed. -/
theorem last_accepted_edge_is_broadcast (st : SioState) (es : List CtrlEvent)
    (r : String) (e : CtrlEvent)
    (hrooms : ∀ e' ∈ es, eventRoom e' = some r)
    (hnoseek : ∀ e' ∈ es, isSeek e' = false)
    (hlast : lastAcceptedEvent st es = some e) :
    ∃ ns : PlaybackState,
      lastVideoBroadcast (ctrlRun st es).2 = some (r, ns) ∧
      dictGet (ctrlRun st es).1.videoStates r = some ns ∧
      ns.isPlaying = intendedPlaying e ∧
      (∀ vid, switchVideoId e = some vid → ns.currentVideoId = some vid) := by
  induction es generalizing st with
  | nil => simp [lastAcceptedEvent] at hlast
  | cons e0 rest ih =>
    have hconns := ctrlStep_roomConnections st e0
    have hcong := lastAcceptedEvent_congr st (ctrlStep st e0).1 hconns rest
    simp only [lastAcceptedEvent] at hlast
    rcases hrest : lastAcceptedEvent st rest with _ | e'
    · rw [hrest] at hlast
      by_cases hacc : ctrlAccepted st e0 = true
      · rw [if_pos hacc] at hlast
        have he0 : e0 = e := Option.some.inj hlast
        subst he0
        obtain ⟨ns, hb1, hs1, hp1, hv1⟩ := ctrlStep_accepted st e0 r
          (hrooms e0 (List.mem_cons_self _ _)) hacc
          (hnoseek e0 (List.mem_cons_self _ _))
        have hall : ∀ e' ∈ rest, ctrlAccepted (ctrlStep st e0).1 e' = false :=
          fun x hx => (ctrlAccepted_congr st _ hconns x).trans
            (lastAcceptedEvent_none st rest hrest x hx)
        have hrr := ctrlRun_rejected_all (ctrlStep st e0).1 rest hall
        refine ⟨ns, ?_, ?_, hp1, hv1⟩
        · simp only [ctrlRun]
          rw [lastVideoBroadcast_append, hrr.1, hb1]
        · simp only [ctrlRun]
          rw [hrr.2, hs1]
      · rw [if_neg hacc] at hlast; cases hlast
    · rw [hrest] at hlast
      have he' : e' = e := Option.some.inj hlast
      subst he'
      have ihres := ih (ctrlStep st e0).1
        (fun x hx => hrooms x (List.mem_cons_of_mem _ hx))
        (fun x hx => hnoseek x (List.mem_cons_of_mem _ hx))
        (by rw [hcong, hrest])
      obtain ⟨ns, hb, hs, hp, hv⟩ := ihres
      refine ⟨ns, ?_, ?_, hp, hv⟩
      · simp only [ctrlRun]
        rw [lastVideoBroadcast_append, hb]
      · simp only [ctrlRun]
        exact hs

theorem last_accepted_edge_is_broadcast_witness :
    ∃ ns : PlaybackState,
      lastVideoBroadcast (ctrlRun c2State c2Events).2 = some ("r1", ns) ∧
      dictGet (ctrlRun c2State c2Events).1.videoStates "r1" = some ns ∧
      ns.isPlaying = intendedPlaying
        (.pause "sidA" (some "r1") (some "alice") 7 3) ∧
      (∀ vid, switchVideoId (.pause "sidA" (some "r1") (some "alice") 7 3) =
        some vid → ns.currentVideoId = some vid) :=
  last_accepted_edge_is_broadcast c2State c2Events "r1"
    (.pause "sidA" (some "r1") (some "alice") 7 3)
    (by decide) (by decide) (by decide)

/-! ## Supporting lemmas for the join-sequence run (C10) -/

theorem get_user_role_joinStep_match (st : SioState) (j : JoinMsg)
    (rid gid : String) (hrid : rid ≠ "") (hgid : gid ≠ "")
    (hj : j.roomId = some rid ∧ j.guestId = some gid) :
    get_user_role (joinStep st j) (some gid) rid = j.role := by
  obtain ⟨h1, h2⟩ := hj
  simp only [joinStep, join_room, h1, h2]
  rw [if_neg (not_or.mpr ⟨hrid, hgid⟩)]
  rcases dictGet st.videoStates rid with _ | vs <;>
    simp [get_user_role, dictGet_dictSet_self]

theorem get_user_role_joinStep_other (st : SioState) (j : JoinMsg)
    (rid gid : String)
    (hj : ¬(j.roomId = some rid ∧ j.guestId = some gid)) :
    get_user_role (joinStep st j) (some gid) rid =
      get_user_role st (some gid) rid := by
  rcases hro : j.roomId with _ | r0
  · simp [joinStep, join_room, hro]
  rcases hgo : j.guestId with _ | g0
  · simp [joinStep, join_room, hro, hgo]
  by_cases hval : r0 = "" ∨ g0 = ""
  · simp [joinStep, join_room, hro, hgo, hval]
  · have hpair : ¬(r0 = rid ∧ g0 = gid) := by
      intro hc
      exact hj ⟨by rw [hro, hc.1], by rw [hgo, hc.2]⟩
    simp only [joinStep, join_room, hro, hgo]
    rw [if_neg hval]
    rcases dictGet st.videoStates r0 with _ | vs
    all_goals {
      by_cases hr : r0 = rid
      · subst hr
        have hg : g0 ≠ gid := fun e => hpair ⟨rfl, e⟩
        simp only [get_user_role, dictGet_dictSet_self]
        rw [dictGet_dictSet_ne _ g0 gid _ hg]
        rcases hus : dictGet st.roomConnections r0 with _ | us
        · simp [hus, dictGet]
        · simp [hus]
      · simp only [get_user_role]
        rw [dictGet_dictSet_ne _ r0 rid _ hr]
    }

theorem get_user_role_joinRun_other (st : SioState) (js : List JoinMsg)
    (rid gid : String)
    (h : ∀ j ∈ js, ¬(j.roomId = some rid ∧ j.guestId = some gid)) :
    get_user_role (joinRun st js) (some gid) rid =
      get_user_role st (some gid) rid := by
  induction js generalizing st with
  | nil => rfl
  | cons j rest ih =>
    simp only [joinRun]
    rw [ih (joinStep st j) (fun x hx => h x (List.mem_cons_of_mem _ hx)),
      get_user_role_joinStep_other st j rid gid (h j (List.mem_cons_self _ _))]

theorem lastAnnouncedRole_none (rid gid : String) (js : List JoinMsg)
    (h : lastAnnouncedRole rid gid js = none) :
    ∀ j ∈ js, ¬(j.roomId = some rid ∧ j.guestId = some gid) := by
  induction js with
  | nil => simp
  | cons j rest ih =>
    simp only [lastAnnouncedRole] at h
    rcases hr : lastAnnouncedRole rid gid rest with _ | ρ
    · rw [hr] at h
      intro x hx
      rcases List.mem_cons.mp hx with rfl | hx'
      · intro hc; rw [if_pos hc] at h; cases h
      · exact ih hr x hx'
    · rw [hr] at h; cases h

theorem role_after_joins (st : SioState) (js : List JoinMsg)
    (rid gid : String) (hrid : rid ≠ "") (hgid : gid ≠ "") (ρ : String)
    (hlast : lastAnnouncedRole rid gid js = some ρ) :
    get_user_role (joinRun st js) (some gid) rid = ρ := by
  induction js generalizing st with
  | nil => simp [lastAnnouncedRole] at hlast
  | cons j rest ih =>
    simp only [lastAnnouncedRole] at hlast
    rcases hr : lastAnnouncedRole rid gid rest with _ | ρ'
    · rw [hr] at hlast
      by_cases hc : j.roomId = some rid ∧ j.guestId = some gid
      · rw [if_pos hc] at hlast
        simp only [joinRun]
        rw [get_user_role_joinRun_other (joinStep st j) rest rid gid
          (lastAnnouncedRole_none rid gid rest hr),
          get_user_role_joinStep_match st j rid gid hrid hgid hc]
        exact Option.some.inj hlast
      · rw [if_neg hc] at hlast; cases hlast
    · rw [hr] at hlast
      have he : ρ' = ρ := Option.some.inj hlast
      subst he
      simp only [joinRun]
      exact ih (joinStep st j) hr

/-- C10: the role authorization uses is exactly the role string the client
itself announced in its most recent `join_room` for that (room, guest) —
no server-side validation occurs — so a client announcing `"admin"` or
`"moderator"` passes the control-event check and its `video:play` is
applied and broadcast; a guest with no connection record defaults to
`"viewer"`. -/
theorem announced_role_governs_authorization (st : SioState)
    (js : List JoinMsg) (rid gid : String)
    (hrid : rid ≠ "") (hgid : gid ≠ "") (ρ : String)
    (hlast : lastAnnouncedRole rid gid js = some ρ) :
    get_user_role (joinRun st js) (some gid) rid = ρ ∧
    (is_admin_or_mod ρ = true → ∀ sid t now,
      video_play (joinRun st js) sid (some rid) (some gid) t now =
        ({ joinRun st js with
            videoStates := dictSet (joinRun st js).videoStates rid
              ⟨((dictGet (joinRun st js).videoStates rid).bind
                  (·.currentVideoId)), true, t, now, some gid⟩ },
          [.videoState rid
            ⟨((dictGet (joinRun st js).videoStates rid).bind
                (·.currentVideoId)), true, t, now, some gid⟩])) ∧
    (∀ st' : SioState,
      (dictGet st'.roomConnections rid).bind (fun us => dictGet us gid) =
        none →
      get_user_role st' (some gid) rid = "viewer") := by
  have h1 := role_after_joins st js rid gid hrid hgid ρ hlast
  refine ⟨h1, ?_, ?_⟩
  · intro hmod sid t now
    simp [video_play, hrid, h1, hmod]
  · intro st' hnone
    rcases hc : dictGet st'.roomConnections rid with _ | us
    · simp [get_user_role, hc]
    · rw [hc] at hnone
      simp only [Option.some_bind] at hnone
      simp [get_user_role, hc, hnone]

theorem announced_role_governs_authorization_witness :
    get_user_role (joinRun ⟨[], [], []⟩ [c10Join]) (some "mallory") "r1" =
      "admin" ∧
    (is_admin_or_mod "admin" = true → ∀ sid t now,
      video_play (joinRun ⟨[], [], []⟩ [c10Join]) sid (some "r1")
          (some "mallory") t now =
        ({ joinRun ⟨[], [], []⟩ [c10Join] with
            videoStates := dictSet (joinRun ⟨[], [], []⟩ [c10Join]).videoStates
              "r1" ⟨((dictGet (joinRun ⟨[], [], []⟩ [c10Join]).videoStates
                  "r1").bind (·.currentVideoId)), true, t, now,
                some "mallory"⟩ },
          [.videoState "r1"
            ⟨((dictGet (joinRun ⟨[], [], []⟩ [c10Join]).videoStates
                "r1").bind (·.currentVideoId)), true, t, now,
              some "mallory"⟩])) ∧
    (∀ st' : SioState,
      (dictGet st'.roomConnections "r1").bind (fun us => dictGet us "mallory") =
        none →
      get_user_role st' (some "mallory") "r1" = "viewer") :=
  announced_role_governs_authorization ⟨[], [], []⟩ [c10Join] "r1" "mallory"
    (by decide) (by decide) "admin" (by decide)

end EchoFrame
